import Mathlib

/-!
Verification of the slurm-scrub job-accounting aggregator, curve fitter and
resource predictor.  The Python sources (src/job.py, src/slurm_scrub/predictor.py,
src/slurm_scrub/estimator.py) are shallowly embedded below: strings are modelled
through their character lists, Python floats by rationals, Python `None` /
uncaught exceptions by `Option` (a `none` result of a modelled function marks an
uncaught exception or an implicit `None` return, as noted at each definition).
-/

namespace SlurmScrub

/-! ### Character and digit helpers (used by the regex models) -/

/-- Numeric value of a decimal digit character (the regex groups are converted
with Python `int`, which maps '0'..'9' to 0..9). -/
def charVal (c : Char) : Nat := c.toNat - 48

/-- Value of a list of decimal digit characters, most significant first
(Python `int` applied to a digit string). -/
def digitsVal (ds : List Char) : Nat := ds.foldl (fun a c => a * 10 + charVal c) 0

/-- Two-digit zero-padded decimal rendering of `n < 100` (the `{:02d}` format). -/
def pad2 (n : Nat) : List Char := [Nat.digitChar (n / 10), Nat.digitChar (n % 10)]

/-- Decimal digits of a natural number, most significant first.  Implemented
with a fuel argument to keep the recursion structural. -/
def natDigitsAux : Nat → Nat → List Char
  | 0, _ => []
  | fuel + 1, n =>
    if n < 10 then [Nat.digitChar n]
    else natDigitsAux fuel (n / 10) ++ [Nat.digitChar (n % 10)]

/-- Decimal rendering of a natural number, most significant digit first. -/
def natDigits (n : Nat) : List Char := natDigitsAux (n + 1) n

/-! ### The three timestamp regexes of src/job.py

`DDHHMMSS_RE = (?P<days>\d+)-(?P<hours>\d{2}):(?P<minutes>\d{2}):(?P<seconds>\d{2})`
`HHMMSS_RE   = (?P<hours>\d{2}):(?P<minutes>\d{2}):(?P<seconds>\d{2})`
`MMSSMMM_RE  = (?P<minutes>\d{2}):(?P<seconds>\d{2}).(?P<milliseconds>\d{3})`

They are applied with `re.match`, i.e. anchored at the start of the string but
allowed to leave a suffix unconsumed.  Note the unescaped `.` in `MMSSMMM_RE`:
it matches an arbitrary character, and the model mirrors that. -/

/-- Model of the regex fragment `\d{2}`: consume exactly two decimal digits and
return their value together with the rest of the input. -/
def read2 : List Char → Option (Nat × List Char)
  | a :: b :: rest =>
    if a.isDigit && b.isDigit then some (charVal a * 10 + charVal b, rest) else none
  | _ => none

/-- Model of the regex fragment `\d{3}`. -/
def read3 : List Char → Option (Nat × List Char)
  | a :: b :: c :: rest =>
    if a.isDigit && b.isDigit && c.isDigit then
      some (charVal a * 100 + charVal b * 10 + charVal c, rest)
    else none
  | _ => none

/-- Model of a literal `:` in the pattern. -/
def readColon : List Char → Option (List Char)
  | ':' :: rest => some rest
  | _ => none

/-- Model of the unescaped `.` in `MMSSMMM_RE`: consumes one arbitrary
character. -/
def readDot : List Char → Option (List Char)
  | _ :: rest => some rest
  | [] => none

/-- Model of the literal `-` in `DDHHMMSS_RE`. -/
def readDash : List Char → Option (List Char)
  | '-' :: rest => some rest
  | _ => none

/-- Model of `re.match(DDHHMMSS_RE, s)` followed by the timedelta conversion of
src/job.py: `days*86400 + hours*3600 + minutes*60 + seconds`.  The greedy `\d+`
for the days group is the maximal digit prefix (backtracking cannot help, since
the following `-` is not a digit). -/
def matchDDHHMMSS (cs : List Char) : Option Nat :=
  let ds := cs.takeWhile Char.isDigit
  match readDash (cs.dropWhile Char.isDigit) with
  | none => none
  | some r1 =>
    if ds = [] then none else
    match read2 r1 with
    | none => none
    | some (h, r2) =>
      match readColon r2 with
      | none => none
      | some r3 =>
        match read2 r3 with
        | none => none
        | some (m, r4) =>
          match readColon r4 with
          | none => none
          | some r5 =>
            match read2 r5 with
            | none => none
            | some (s, _) => some (digitsVal ds * 86400 + h * 3600 + m * 60 + s)

/-- Model of `re.match(HHMMSS_RE, s)` followed by the timedelta conversion:
`hours*3600 + minutes*60 + seconds`. -/
def matchHHMMSS (cs : List Char) : Option Nat :=
  match read2 cs with
  | none => none
  | some (h, r1) =>
    match readColon r1 with
    | none => none
    | some r2 =>
      match read2 r2 with
      | none => none
      | some (m, r3) =>
        match readColon r3 with
        | none => none
        | some r4 =>
          match read2 r4 with
          | none => none
          | some (s, _) => some (h * 3600 + m * 60 + s)

/-- Model of `re.match(MMSSMMM_RE, s)` followed by
`int(timedelta(minutes, seconds, milliseconds).total_seconds())`, which
truncates the fractional milliseconds: `(m*60000 + s*1000 + ms) / 1000` in
integer division. -/
def matchMMSSmmm (cs : List Char) : Option Nat :=
  match read2 cs with
  | none => none
  | some (m, r1) =>
    match readColon r1 with
    | none => none
    | some r2 =>
      match read2 r2 with
      | none => none
      | some (s, r3) =>
        match readDot r3 with
        | none => none
        | some r4 =>
          match read3 r4 with
          | none => none
          | some (ms, _) => some ((m * 60000 + s * 1000 + ms) / 1000)

/-- Model of `_parse_slurm_timedelta` (src/job.py): try the three formats in
order; if none matches, Python falls off the function and returns `None`,
modelled by `none`. -/
def parse_slurm_timedelta (delta : String) : Option Nat :=
  match matchDDHHMMSS delta.data with
  | some v => some v
  | none =>
    match matchHHMMSS delta.data with
    | some v => some v
    | none => matchMMSSmmm delta.data

/-! ### Duration rendering

Modelled from the spec: the repository's tests render seconds in the three
formats `D-HH:MM:SS`, `HH:MM:SS` and `MM:SS.mmm`; the rendering functions are
not part of src/, so they are written here from the spec's format strings, with
two-digit zero padding for each clock field and `000` milliseconds for whole
seconds. -/

/-- Modelled from the spec: render seconds in the `D-HH:MM:SS` format. -/
def fmtDDHHMMSS (s : Nat) : String :=
  ⟨natDigits (s / 86400) ++ '-' ::
    (pad2 (s % 86400 / 3600) ++ ':' :: (pad2 (s % 3600 / 60) ++ ':' :: pad2 (s % 60)))⟩

/-- Modelled from the spec: render seconds in the `HH:MM:SS` format. -/
def fmtHHMMSS (s : Nat) : String :=
  ⟨pad2 (s / 3600) ++ ':' :: (pad2 (s % 3600 / 60) ++ ':' :: pad2 (s % 60))⟩

/-- Modelled from the spec: render whole seconds in the `MM:SS.mmm` format
(milliseconds always `000`). -/
def fmtMMSSmmm (s : Nat) : String :=
  ⟨pad2 (s / 60) ++ ':' :: (pad2 (s % 60) ++ '.' :: ['0', '0', '0'])⟩

/-! ### Round-trip lemmas for the duration parser -/

lemma pad2_facts : ∀ n < 100, (Nat.digitChar (n / 10)).isDigit = true ∧
    (Nat.digitChar (n % 10)).isDigit = true ∧
    charVal (Nat.digitChar (n / 10)) * 10 + charVal (Nat.digitChar (n % 10)) = n := by
  decide

lemma digitChar_digit : ∀ d < 10, (Nat.digitChar d).isDigit = true ∧
    charVal (Nat.digitChar d) = d := by
  decide

lemma natDigits_single : ∀ d < 10, natDigits d = [Nat.digitChar d] := by
  decide

lemma read2_pad2 (n : Nat) (h : n < 100) (r : List Char) :
    read2 (pad2 n ++ r) = some (n, r) := by
  obtain ⟨h1, h2, h3⟩ := pad2_facts n h
  simp [pad2, read2, h1, h2, h3]

lemma read2_pad2_nil (n : Nat) (h : n < 100) : read2 (pad2 n) = some (n, []) := by
  have := read2_pad2 n h []
  simpa using this

lemma readColon_cons (r : List Char) : readColon (':' :: r) = some r := rfl

lemma takeWhile_pad2 (n : Nat) (h : n < 100) (c : Char) (hc : c.isDigit = false)
    (r : List Char) :
    (pad2 n ++ c :: r).takeWhile Char.isDigit = pad2 n ∧
    (pad2 n ++ c :: r).dropWhile Char.isDigit = c :: r := by
  obtain ⟨h1, h2, _⟩ := pad2_facts n h
  simp [pad2, List.takeWhile, List.dropWhile, h1, h2, hc]

lemma matchDD_fmtDD (s : Nat) (h : s < 864000) :
    matchDDHHMMSS (fmtDDHHMMSS s).data = some s := by
  have hd : s / 86400 < 10 := by omega
  have hh : s % 86400 / 3600 < 100 := by omega
  have hm : s % 3600 / 60 < 100 := by omega
  have hs : s % 60 < 100 := by omega
  obtain ⟨hdig, hval⟩ := digitChar_digit _ hd
  have hdata : (fmtDDHHMMSS s).data =
      Nat.digitChar (s / 86400) :: '-' ::
        (pad2 (s % 86400 / 3600) ++ ':' :: (pad2 (s % 3600 / 60) ++ ':' :: pad2 (s % 60))) := by
    show (natDigits (s / 86400) ++ _) = _
    rw [natDigits_single _ hd]
    simp
  have htake : ((fmtDDHHMMSS s).data).takeWhile Char.isDigit = [Nat.digitChar (s / 86400)] := by
    rw [hdata]
    simp [List.takeWhile_cons, hdig]
  have hdrop : ((fmtDDHHMMSS s).data).dropWhile Char.isDigit =
      '-' :: (pad2 (s % 86400 / 3600) ++ ':' :: (pad2 (s % 3600 / 60) ++ ':' :: pad2 (s % 60))) := by
    rw [hdata]
    simp [List.dropWhile_cons, hdig]
  rw [matchDDHHMMSS]
  rw [htake, hdrop, readDash]
  simp only [List.cons_ne_nil, if_false, read2_pad2 _ hh, readColon_cons, read2_pad2 _ hm,
    read2_pad2_nil _ hs, digitsVal, List.foldl, hval, Option.some.injEq, ite_false]
  omega

lemma matchDD_fmtHMS (s : Nat) (h : s < 360000) :
    matchDDHHMMSS (fmtHHMMSS s).data = none := by
  have hh : s / 3600 < 100 := by omega
  have hdata : (fmtHHMMSS s).data =
      pad2 (s / 3600) ++ ':' :: (pad2 (s % 3600 / 60) ++ ':' :: pad2 (s % 60)) := rfl
  obtain ⟨-, hdrop⟩ :=
    takeWhile_pad2 _ hh ':' (by decide) (pad2 (s % 3600 / 60) ++ ':' :: pad2 (s % 60))
  rw [matchDDHHMMSS, hdata, hdrop]
  rfl

lemma matchHMS_fmtHMS (s : Nat) (h : s < 360000) :
    matchHHMMSS (fmtHHMMSS s).data = some s := by
  have hh : s / 3600 < 100 := by omega
  have hm : s % 3600 / 60 < 100 := by omega
  have hs : s % 60 < 100 := by omega
  have hdata : (fmtHHMMSS s).data =
      pad2 (s / 3600) ++ ':' :: (pad2 (s % 3600 / 60) ++ ':' :: pad2 (s % 60)) := rfl
  rw [matchHHMMSS, hdata]
  simp only [read2_pad2 _ hh, readColon_cons, read2_pad2 _ hm, read2_pad2_nil _ hs,
    Option.some.injEq]
  omega

lemma matchDD_fmtMS (s : Nat) (h : s < 6000) :
    matchDDHHMMSS (fmtMMSSmmm s).data = none := by
  have hm : s / 60 < 100 := by omega
  have hdata : (fmtMMSSmmm s).data =
      pad2 (s / 60) ++ ':' :: (pad2 (s % 60) ++ '.' :: ['0', '0', '0']) := rfl
  obtain ⟨-, hdrop⟩ :=
    takeWhile_pad2 _ hm ':' (by decide) (pad2 (s % 60) ++ '.' :: ['0', '0', '0'])
  rw [matchDDHHMMSS, hdata, hdrop]
  rfl

lemma matchHMS_fmtMS (s : Nat) (h : s < 6000) :
    matchHHMMSS (fmtMMSSmmm s).data = none := by
  have hm : s / 60 < 100 := by omega
  have hs : s % 60 < 100 := by omega
  have hdata : (fmtMMSSmmm s).data =
      pad2 (s / 60) ++ ':' :: (pad2 (s % 60) ++ '.' :: ['0', '0', '0']) := rfl
  rw [matchHHMMSS, hdata]
  simp only [read2_pad2 _ hm, readColon_cons, read2_pad2 _ hs]
  rfl

lemma matchMS_fmtMS (s : Nat) (h : s < 6000) :
    matchMMSSmmm (fmtMMSSmmm s).data = some s := by
  have hm : s / 60 < 100 := by omega
  have hs : s % 60 < 100 := by omega
  have hdata : (fmtMMSSmmm s).data =
      pad2 (s / 60) ++ ':' :: (pad2 (s % 60) ++ '.' :: ['0', '0', '0']) := rfl
  rw [matchMMSSmmm, hdata]
  simp only [read2_pad2 _ hm, readColon_cons, read2_pad2 _ hs]
  have hdot : readDot ('.' :: ['0', '0', '0']) = some ['0', '0', '0'] := rfl
  have h3 : read3 ['0', '0', '0'] = some (0, []) := by decide
  simp only [hdot, h3, Option.some.injEq]
  omega

/-- C7: for each of the three duration formats `D-HH:MM:SS`, `HH:MM:SS` and
`MM:SS.mmm`, restricted to the seconds values in `[0, 10 days)` that the format
can represent (any value for the day format, under 100 hours for the clock
format, under 100 minutes for the millisecond format), rendering the value and
applying `_parse_slurm_timedelta` returns the value again. -/
theorem timedelta_roundtrip (s : Nat) :
    (s < 864000 → parse_slurm_timedelta (fmtDDHHMMSS s) = some s) ∧
    (s < 360000 → parse_slurm_timedelta (fmtHHMMSS s) = some s) ∧
    (s < 6000 → parse_slurm_timedelta (fmtMMSSmmm s) = some s) := by
  refine ⟨fun h => ?_, fun h => ?_, fun h => ?_⟩
  · rw [parse_slurm_timedelta, matchDD_fmtDD s h]
  · rw [parse_slurm_timedelta, matchDD_fmtHMS s h, matchHMS_fmtHMS s h]
  · rw [parse_slurm_timedelta, matchDD_fmtMS s h, matchHMS_fmtMS s h, matchMS_fmtMS s h]

/-- Witness for C7: concrete round trips in each of the three formats
(1 day 1 hour 1 minute 1 second; 25 hours; 99 minutes 59 seconds). -/
theorem timedelta_roundtrip_witness :
    parse_slurm_timedelta (fmtDDHHMMSS 90061) = some 90061 ∧
    parse_slurm_timedelta (fmtHHMMSS 90000) = some 90000 ∧
    parse_slurm_timedelta (fmtMMSSmmm 5999) = some 5999 :=
  ⟨(timedelta_roundtrip 90061).1 (by decide),
   (timedelta_roundtrip 90000).2.1 (by decide),
   (timedelta_roundtrip 5999).2.2 (by decide)⟩

/-! ### Resource predictor (src/slurm_scrub/predictor.py)

Python floats are modelled by rationals.  The JSON fit cache (`self.fits`) is a
nested mapping, modelled as an association list from rule name to an
association list from resource-dimension name to a fit model; cache staleness
(`need_update` / `load_fits`) only reloads the same mapping and is not part of
any claim, so `estimate` takes the mapping directly. -/

/-- One leaf of the fit cache: `{params, samples, range, failures, mean_eff}`.
The `range` pair is flattened into `rmin`/`rmax`. -/
structure FitModel where
  params : List ℚ
  samples : Nat
  rmin : ℚ
  rmax : ℚ
  failures : Nat
  mean_eff : ℚ
deriving DecidableEq

/-- Model of `np.polyval(p, x)`: Horner evaluation with the highest-degree
coefficient first. -/
def polyval (p : List ℚ) (x : ℚ) : ℚ := p.foldl (fun acc c => acc * x + c) 0

/-- Model of Python `round` on an exact value: round half to even, returning an
integer (`int(round(x))` in the source). -/
def pyRound (q : ℚ) : Int :=
  let f := ⌊q⌋
  if q - f < 1 / 2 then f
  else if 1 / 2 < q - f then f + 1
  else if f % 2 = 0 then f else f + 1

/-- Model of `Predictor.estimate(rulename, filesize, resource, default, attempt)`.
`filesize` is in bytes and is converted to MB first.  A `none` result marks an
uncaught `KeyError` (`fit['time']` when the rule has no time dimension);
every other path returns a value, mirroring the source's early returns, the
missing-dimension default, the attempt scaling, the 45..62 minute time clamp
and the `short_jobs` booleanisation. -/
def estimate (fits : List (String × List (String × FitModel))) (rulename : String)
    (filesize : ℚ) (resource : String) (default : Int) (attempt : Int) : Option Int :=
  let fsMB := filesize / 2 ^ 20
  match fits.lookup rulename with
  | none => some (default * attempt)
  | some fit =>
    match fit.lookup "time" with
    | none => none
    | some tfit =>
      if tfit.samples < 10 then some (default * attempt)
      else if fsMB < tfit.rmin / 2 ∨ tfit.rmax * (3 / 2) < fsMB then some (default * attempt)
      else
        let k := if resource = "short_jobs" then "time" else resource
        let result : Int :=
          match fit.lookup k with
          | none => default
          | some kfit => pyRound (polyval kfit.params fsMB)
        let result := result * attempt
        let result := if k = "time" ∧ 45 < result ∧ result < 62 then 62 else result
        if resource = "short_jobs" then some (if result ≤ 61 then 1 else 0)
        else some result

/-! ### Claims C1, C2, C3 about `estimate` -/

/-- Fit cache with a mature time model (constant polynomial 1) and no other
dimension, used for the C1 counterexample and witness. -/
def tfitC1 : FitModel := ⟨[1], 10, 0, 10, 0, 100⟩

def fitC1 : List (String × FitModel) := [("time", tfitC1)]

def fitsC1 : List (String × List (String × FitModel)) := [("r", fitC1)]

/-- C1 counterexample: with the no-model, sample-count and range gates passed
and the requested dimension "mem" absent, `estimate` with `default = 10` and
`attempt = 2` returns `20 = default * attempt`, not the bare default `10`
asserted by the claim. -/
theorem estimate_missing_dim_counterexample :
    estimate fitsC1 "r" (2 ^ 20) "mem" 10 2 = some 20 ∧
    estimate fitsC1 "r" (2 ^ 20) "mem" 10 2 ≠ some 10 := by
  constructor <;> simp [estimate, fitsC1, fitC1, tfitC1, List.lookup]

/-- C1 (amended): if the gates pass and the mapped resource dimension has no
model entry, `estimate` returns `default * attempt` — the attempt scaling is
applied in this branch as well; the time clamp and the short-queue
booleanisation cannot fire there because the missing dimension is never the
time dimension. -/
theorem estimate_missing_dim (fits : List (String × List (String × FitModel)))
    (rule : String) (fs : ℚ) (res : String) (default attempt : Int)
    (fit : List (String × FitModel)) (tfit : FitModel)
    (hf : fits.lookup rule = some fit) (ht : fit.lookup "time" = some tfit)
    (hs : ¬ tfit.samples < 10)
    (hr : ¬ (fs / 2 ^ 20 < tfit.rmin / 2 ∨ tfit.rmax * (3 / 2) < fs / 2 ^ 20))
    (hk : fit.lookup (if res = "short_jobs" then "time" else res) = none) :
    estimate fits rule fs res default attempt = some (default * attempt) := by
  have hkt : (if res = "short_jobs" then "time" else res) ≠ "time" := by
    intro h
    rw [h, ht] at hk
    exact Option.noConfusion hk
  have hres : res ≠ "short_jobs" := by
    intro h
    exact hkt (by rw [if_pos h])
  have hrt : res ≠ "time" := by
    intro h
    exact hkt (by rw [if_neg hres, h])
  rw [if_neg hres] at hk
  simp only [estimate, hf, ht, if_neg hs, if_neg hr, if_neg hres, hk]
  rw [if_neg (fun hc => hrt hc.1)]

/-- Fit cache whose time model is the constant polynomial 61, used for the C2
counterexample and witness. -/
def tfitC2 : FitModel := ⟨[61], 10, 0, 10, 0, 100⟩

def fitsC2 : List (String × List (String × FitModel)) := [("r", [("time", tfitC2)])]

/-- C2 counterexample: a rule whose raw time estimate resolves to 61 minutes is
clamped to 62 by the 45..62 band before the short-queue test, so the
short-queue request returns 0, not the 1 asserted by the claim. -/
theorem estimate_short_jobs_counterexample :
    estimate fitsC2 "r" (2 ^ 20) "short_jobs" 5 1 = some 0 ∧
    estimate fitsC2 "r" (2 ^ 20) "short_jobs" 5 1 ≠ some 1 := by
  constructor <;> simp [estimate, fitsC2, tfitC2, List.lookup, polyval, pyRound] <;> norm_num

/-- C2 (amended): for a short-queue request that reaches the final step, the
returned boolean-as-integer is 1 exactly when the attempt-scaled rounded time
estimate is at most 45 minutes (estimates strictly between 45 and 62 are
clamped to 62 first, so 46..61 — in particular 61 — and 62 and above are all
ineligible and return 0). -/
theorem estimate_short_jobs (fits : List (String × List (String × FitModel)))
    (rule : String) (fs : ℚ) (default attempt : Int)
    (fit : List (String × FitModel)) (tfit : FitModel)
    (hf : fits.lookup rule = some fit) (ht : fit.lookup "time" = some tfit)
    (hs : ¬ tfit.samples < 10)
    (hr : ¬ (fs / 2 ^ 20 < tfit.rmin / 2 ∨ tfit.rmax * (3 / 2) < fs / 2 ^ 20)) :
    (estimate fits rule fs "short_jobs" default attempt = some 1 ↔
      pyRound (polyval tfit.params (fs / 2 ^ 20)) * attempt ≤ 45) ∧
    (estimate fits rule fs "short_jobs" default attempt = some 0 ↔
      ¬ pyRound (polyval tfit.params (fs / 2 ^ 20)) * attempt ≤ 45) := by
  simp only [estimate, hf, ht, if_neg hs, if_neg hr, String.reduceEq, reduceIte, ht,
    eq_self_iff_true, true_and]
  constructor <;> split_ifs <;> simp_all <;> omega

/-- C3 witness caches: mature time models with constant polynomials 50, 40 and
70. -/
def fits50 : List (String × List (String × FitModel)) :=
  [("r", [("time", ⟨[50], 10, 0, 10, 0, 100⟩)])]

def fits40 : List (String × List (String × FitModel)) :=
  [("r", [("time", ⟨[40], 10, 0, 10, 0, 100⟩)])]

def fits70 : List (String × List (String × FitModel)) :=
  [("r", [("time", ⟨[70], 10, 0, 10, 0, 100⟩)])]

/-- C3: for a time request reaching the polynomial branch, the attempt-scaled
result is clamped: a value strictly between 45 and 62 becomes exactly 62, any
other value is returned unchanged. -/
theorem estimate_time_clamp (fits : List (String × List (String × FitModel)))
    (rule : String) (fs : ℚ) (default attempt : Int)
    (fit : List (String × FitModel)) (tfit : FitModel)
    (hf : fits.lookup rule = some fit) (ht : fit.lookup "time" = some tfit)
    (hs : ¬ tfit.samples < 10)
    (hr : ¬ (fs / 2 ^ 20 < tfit.rmin / 2 ∨ tfit.rmax * (3 / 2) < fs / 2 ^ 20)) :
    (45 < pyRound (polyval tfit.params (fs / 2 ^ 20)) * attempt ∧
        pyRound (polyval tfit.params (fs / 2 ^ 20)) * attempt < 62 →
      estimate fits rule fs "time" default attempt = some 62) ∧
    (¬ (45 < pyRound (polyval tfit.params (fs / 2 ^ 20)) * attempt ∧
        pyRound (polyval tfit.params (fs / 2 ^ 20)) * attempt < 62) →
      estimate fits rule fs "time" default attempt =
        some (pyRound (polyval tfit.params (fs / 2 ^ 20)) * attempt)) := by
  simp only [estimate, hf, ht, if_neg hs, if_neg hr, String.reduceEq, reduceIte, ht,
    eq_self_iff_true, true_and]
  exact ⟨fun h => by rw [if_pos h], fun h => by rw [if_neg h]⟩

/-- Witness for C3: a raw time estimate of 50 is returned as 62, one of 40 as
40, one of 70 as 70. -/
theorem estimate_time_clamp_witness :
    estimate fits50 "r" (2 ^ 20) "time" 5 1 = some 62 ∧
    estimate fits40 "r" (2 ^ 20) "time" 5 1 = some 40 ∧
    estimate fits70 "r" (2 ^ 20) "time" 5 1 = some 70 := by
  refine ⟨?_, ?_, ?_⟩
  · exact (estimate_time_clamp fits50 "r" (2 ^ 20) 5 1 _ _ rfl rfl
      (by decide) (by norm_num)).1 (by norm_num [polyval, pyRound])
  · exact ((estimate_time_clamp fits40 "r" (2 ^ 20) 5 1 _ _ rfl rfl
      (by decide) (by norm_num)).2 (by norm_num [polyval, pyRound])).trans
      (by norm_num [polyval, pyRound])
  · exact ((estimate_time_clamp fits70 "r" (2 ^ 20) 5 1 _ _ rfl rfl
      (by decide) (by norm_num)).2 (by norm_num [polyval, pyRound])).trans
      (by norm_num [polyval, pyRound])

/-- Witness for C1 (amended): with the "mem" dimension missing, default 10 and
attempt 3, the estimate is 30. -/
theorem estimate_missing_dim_witness :
    estimate fitsC1 "r" (2 ^ 20) "mem" 10 3 = some 30 :=
  (estimate_missing_dim fitsC1 "r" (2 ^ 20) "mem" 10 3 fitC1 tfitC1 rfl rfl
    (by decide) (by norm_num [tfitC1]) rfl).trans (by norm_num)

/-- Witness for C2 (amended): with a constant raw estimate of 61 the
short-queue answer is 0 (ineligible), matching the amended reading. -/
theorem estimate_short_jobs_witness :
    estimate fitsC2 "r" (2 ^ 20) "short_jobs" 5 1 = some 0 :=
  ((estimate_short_jobs fitsC2 "r" (2 ^ 20) 5 1 _ tfitC2 rfl rfl
    (by decide) (by norm_num [tfitC2])).2).mpr (by norm_num [polyval, pyRound, tfitC2])

/-! ### Curve fitter (src/slurm_scrub/estimator.py)

`Estimator.cost` is pure arithmetic over numpy floats, modelled over ℚ.
`np.ceil(np.log2 q)` for `q > 0` is the least integer `z` with `q ≤ 2 ^ z`,
which is exactly Mathlib's `Int.clog 2 q`; the `np.where` of the source
computes both branch expressions and selects pointwise, so per sample it is an
`if` on the selection mask. -/

/-- Model of `Estimator.cost` (per sample): `val = polyval(p, x)` clamped below
by 1 (`np.where(val < 1, 1, val)`), `fac = ceil(log2(y/val))`, and the residual
is `fac + y/(2^fac·val)` on under-estimates (`val < y`), else `y/val`, minus
the target efficiency. -/
def Estimator.cost (target_eff : ℚ) (p : List ℚ) (x y : ℚ) : ℚ :=
  let val := polyval p x
  let val := if val < 1 then 1 else val
  let fac := Int.clog 2 (y / val)
  (if val < y then (fac : ℚ) + y / (2 ^ fac * val) else y / val) - target_eff

/-- The spec's wording of the cost function: `val = max(polynomial(size), 1)`;
if `true > val` the residual is `ceil(log2(true/val)) + true/(2^ceil · val) −
target_efficiency`, and if `val ≥ true` it is `true/val − target_efficiency`. -/
def Estimator.cost_spec (target_eff : ℚ) (p : List ℚ) (x y : ℚ) : ℚ :=
  let val := max (polyval p x) 1
  let fac := Int.clog 2 (y / val)
  (if y > val then (fac : ℚ) + y / (2 ^ fac * val) else y / val) - target_eff

/-- C5: the implemented cost function agrees with the spec's description for
every coefficient vector, sample and target efficiency: the `np.where(val < 1,
1, val)` clamp is `max(polynomial(size), 1)`, and the branch split `val < y` is
exactly the spec's `true > val` / `val ≥ true` case split. -/
theorem cost_eq_cost_spec (target_eff : ℚ) (p : List ℚ) (x y : ℚ) :
    Estimator.cost target_eff p x y = Estimator.cost_spec target_eff p x y := by
  have hval : (if polyval p x < 1 then (1 : ℚ) else polyval p x) = max (polyval p x) 1 := by
    rcases lt_or_le (polyval p x) 1 with h | h
    · rw [if_pos h, max_eq_right h.le]
    · rw [if_neg (not_lt.2 h), max_eq_left h]
  simp only [Estimator.cost, Estimator.cost_spec, gt_iff_lt]
  rw [hval]

/-- Model of the degree loop bounds of `Estimator.fit`: Python
`range(min_deg, 10)`, i.e. the coefficient-vector lengths `min_deg .. 9`
(the ceiling 10 is exclusive). -/
def fitDegrees (min_deg : Nat) : List Nat := (List.range 10).drop min_deg

/-- Model of the initial coefficient vector of `Estimator.fit`:
`init = np.zeros(deg); init[-1] = 1` — all zeros except the last entry, which
in `np.polyval` order is the constant (lowest-degree) coefficient.  (For
`deg = 0` the Python code would raise `IndexError`; the loop only produces
`deg ≥ 1`.) -/
def fitInit (deg : Nat) : List ℚ := (List.replicate deg 0).set (deg - 1) 1

/-- Model of the best-solution selection of `Estimator.fit`: starting from
`best = None`, replace `best` whenever `best.cost > params.cost`.  The solver
result for each degree is abstracted by its residual cost `cost deg` (the
external scipy `least_squares` call is deterministic for fixed inputs), and
the selection returns the chosen degree. -/
def pickBest (cost : Nat → ℚ) : Option Nat → List Nat → Option Nat
  | best, [] => best
  | none, d :: ds => pickBest cost (some d) ds
  | some b, d :: ds => pickBest cost (some (if cost d < cost b then d else b)) ds

/-- Model of the degree loop of `Estimator.fit`. -/
def fitLoop (cost : Nat → ℚ) (min_deg : Nat) : Option Nat :=
  pickBest cost none (fitDegrees min_deg)

lemma pickBest_spec (cost : Nat → ℚ) :
    ∀ (l : List Nat) (b : Nat), ∃ d, pickBest cost (some b) l = some d ∧
      (d = b ∨ d ∈ l) ∧ cost d ≤ cost b ∧ ∀ e ∈ l, cost d ≤ cost e := by
  intro l
  induction l with
  | nil => exact fun b => ⟨b, rfl, Or.inl rfl, le_refl _, by simp⟩
  | cons c cs ih =>
    intro b
    obtain ⟨d, hpick, hmem, hle, hall⟩ := ih (if cost c < cost b then c else b)
    refine ⟨d, hpick, ?_, ?_, ?_⟩
    · rcases hmem with h | h
      · rcases lt_or_le (cost c) (cost b) with hc | hc
        · rw [if_pos hc] at h
          exact Or.inr (h ▸ List.mem_cons_self c cs)
        · rw [if_neg (not_lt.2 hc)] at h
          exact Or.inl h
      · exact Or.inr (List.mem_cons_of_mem c h)
    · rcases lt_or_le (cost c) (cost b) with hc | hc
      · rw [if_pos hc] at hle
        exact hle.trans hc.le
      · rwa [if_neg (not_lt.2 hc)] at hle
    · intro e he
      rcases List.mem_cons.1 he with h | h
      · rw [h]
        rcases lt_or_le (cost c) (cost b) with hc | hc
        · rwa [if_pos hc] at hle
        · rw [if_neg (not_lt.2 hc)] at hle
          exact hle.trans hc
      · exact hall e h

lemma fitDegrees_boundary : ∀ m < 10, 9 ∈ fitDegrees m ∧ 10 ∉ fitDegrees m := by
  decide

lemma fitInit_eq : ∀ n : Nat, fitInit (n + 1) = List.replicate n 0 ++ [1] := by
  intro n
  induction n with
  | zero => rfl
  | succ m ih =>
    have hstep : fitInit (m + 2) = 0 :: fitInit (m + 1) := by
      show (List.replicate (m + 2) (0 : ℚ)).set (m + 1) 1 =
        0 :: (List.replicate (m + 1) 0).set m 1
      rw [List.replicate_succ]
      rfl
    rw [hstep, ih, List.replicate_succ, List.cons_append]

/-- C4 counterexample: the claim's degree ceiling and initial coefficient
vector both disagree with the code.  With `min_degree = 1`, a coefficient
vector of length 10 (the claimed inclusive ceiling) is never tried; and the
initial vector for length 3 is `[0, 0, 1]` — the leading (highest-degree)
coefficient starts at 0, the constant coefficient at 1, not the claimed
leading-1 vector `[1, 0, 0]`. -/
theorem fit_degrees_init_counterexample :
    10 ∉ fitDegrees 1 ∧ fitInit 3 = [0, 0, 1] ∧ fitInit 3 ≠ [1, 0, 0] := by
  refine ⟨by decide, rfl, ?_⟩
  have h3 : fitInit 3 = [0, 0, 1] := rfl
  rw [h3]
  intro hcontra
  have h0 : (0 : ℚ) = 1 := by
    have := List.head_eq_of_cons_eq hcontra
    exact this
  norm_num at h0

/-- C4 (amended): `Estimator.fit` tries coefficient-vector lengths from
`min_degree` to 9 inclusive (the ceiling 10 of `range(min_deg, 10)` is
exclusive); each solve starts from a vector of zeros except the last
(constant-term) coefficient, which starts at 1; and the retained solution is
one of lowest residual cost among all tried lengths. -/
theorem fit_selects_lowest_cost (cost : Nat → ℚ) (min_deg : Nat) (h : min_deg < 10) :
    (∃ d, fitLoop cost min_deg = some d ∧ d ∈ fitDegrees min_deg ∧
      ∀ e ∈ fitDegrees min_deg, cost d ≤ cost e) ∧
    9 ∈ fitDegrees min_deg ∧ 10 ∉ fitDegrees min_deg ∧
    ∀ deg, 1 ≤ deg → fitInit deg = List.replicate (deg - 1) 0 ++ [1] := by
  obtain ⟨h9, h10⟩ := fitDegrees_boundary min_deg h
  refine ⟨?_, h9, h10, fun deg hdeg => ?_⟩
  · rcases hl : fitDegrees min_deg with _ | ⟨b, l⟩
    · rw [hl] at h9
      exact absurd h9 (List.not_mem_nil 9)
    · obtain ⟨d, hpick, hmem, hle, hall⟩ := pickBest_spec cost l b
      refine ⟨d, by rw [fitLoop, hl]; exact hpick, ?_, ?_⟩
      · rcases hmem with hmm | hmm
        · exact hmm ▸ List.mem_cons_self b l
        · exact List.mem_cons_of_mem b hmm
      · intro e he
        rcases List.mem_cons.1 he with hee | hee
        · exact hee ▸ hle
        · exact hall e hee
  · obtain ⟨n, rfl⟩ := Nat.exists_eq_add_of_le hdeg
    rw [Nat.add_comm 1 n, Nat.add_sub_cancel]
    exact fitInit_eq n

/-- Witness for C4 (amended): with `min_degree = 1`, coefficient length 9 is
tried and 10 is not, and the initial vector for length 2 is `[0, 1]`. -/
theorem fit_selects_lowest_cost_witness :
    9 ∈ fitDegrees 1 ∧ 10 ∉ fitDegrees 1 ∧ fitInit 2 = List.replicate 1 0 ++ [1] := by
  obtain ⟨-, h9, h10, hinit⟩ := fit_selects_lowest_cost (fun _ => 0) 1 (by decide)
  exact ⟨h9, h10, hinit 2 (by decide)⟩

/-! ### Memory-string parsing (src/job.py: `multiple_map`, `parsemem`,
`parsememstep`) -/

/-- Model of `multiple_map`: unit letter to power-of-1024 multiplier. -/
def multiple_map : List (Char × ℚ) :=
  [('K', 1024 ^ 0), ('M', 1024 ^ 1), ('G', 1024 ^ 2), ('T', 1024 ^ 3), ('E', 1024 ^ 4)]

/-- Model of Python `float` on the plain decimal strings that appear in memory
fields: optional sign, digits, optional single decimal point (covers the forms
`"2"`, `"2.5"`, `".5"`, `"2."`; exotic float syntax — exponents, inf/nan,
surrounding whitespace — does not occur in these fields and is out of the
modelled fragment).  `none` marks a `ValueError`. -/
def pyFloat (s : String) : Option ℚ :=
  let cs := s.data
  let sign : ℚ := if cs.head? = some '-' then -1 else 1
  let cs := if cs.head? = some '-' ∨ cs.head? = some '+' then cs.tail else cs
  let intPart := cs.takeWhile Char.isDigit
  match cs.dropWhile Char.isDigit with
  | [] => if intPart = [] then none else some (sign * digitsVal intPart)
  | '.' :: fr =>
    if fr.all Char.isDigit ∧ ¬ (intPart = [] ∧ fr = []) then
      some (sign * (digitsVal intPart + digitsVal fr / 10 ^ fr.length))
    else none
  | _ => none

/-- Model of `parsemem(mem, nodes, cpus)`: `multiple = mem[-2]`,
`alloc = mem[-1]`, value `float(mem[:-2]) * multiple_map[multiple]`, scaled by
`nodes` when the basis letter is `n` and by `cpus` otherwise.  `none` marks an
uncaught exception (`IndexError` on short strings, `KeyError` on an unknown
unit letter, `ValueError` from `float`). -/
def parsemem (mem : String) (nodes cpus : Int) : Option ℚ :=
  match mem.data.reverse with
  | alloc :: multiple :: restRev =>
    match multiple_map.lookup multiple with
    | none => none
    | some mult =>
      match pyFloat ⟨restRev.reverse⟩ with
      | none => none
      | some v =>
        some (if alloc = 'n' then v * mult * nodes else v * mult * cpus)
  | _ => none

/-- Model of `parsememstep(mem)`: the empty string parses to 0; otherwise the
last character is the unit letter and the prefix is the magnitude; any
exception (unknown unit, bad magnitude) is re-raised, modelled as `none`. -/
def parsememstep (mem : String) : Option ℚ :=
  if mem = "" then some 0
  else
    match mem.data.reverse with
    | multiple :: restRev =>
      match multiple_map.lookup multiple with
      | none => none
      | some mult =>
        match pyFloat ⟨restRev.reverse⟩ with
        | none => none
        | some v => some (v * mult)
    | [] => none

/-- C8 counterexample: the claim's literal input `"2G n"` (with a space) makes
`mem[-2]` the space character, which is not a unit letter, so `parsemem`
raises instead of returning the claimed `2×1024×1024×4`. -/
theorem parsemem_counterexample :
    parsemem "2G n" 4 8 = none ∧ parsemem "2G n" 4 8 ≠ some (2 * 1024 * 1024 * 4) := by
  constructor <;> simp [parsemem, multiple_map, List.lookup]

/-- C8 (amended): on the spaceless slurm forms, `parsemem "2Gn"` with 4 nodes
and 8 CPUs is `2×1024×1024×4` (basis `n` scales by nodes), `parsemem "2Gc"` is
`2×1024×1024×8` (any other basis scales by CPUs), and the step-memory parser
maps the empty string to 0. -/
theorem parsemem_values :
    parsemem "2Gn" 4 8 = some (2 * 1024 * 1024 * 4) ∧
    parsemem "2Gc" 4 8 = some (2 * 1024 * 1024 * 8) ∧
    parsememstep "" = some 0 := by
  refine ⟨?_, ?_, by norm_num [parsememstep]⟩ <;>
    · simp [parsemem, multiple_map, List.lookup, pyFloat, digitsVal, charVal]
      norm_num

/-! ### Job aggregation (src/job.py: class `Job`)

An accounting record (`entry: Dict[str, str]`) is modelled as an association
list from field name to string value; insertion order is preserved, matching
Python dict semantics for the fields used here.  `Job.update` folds one record;
a `none` result marks an uncaught exception (`KeyError` on a missing required
field, `TypeError`/`ZeroDivisionError` in the arithmetic, a parse failure).
The Python object is mutated in place and an exception can leave it partially
updated; no claim observes a job after an exception, so the model is
all-or-nothing. -/

/-- An accounting record: field name to string value. -/
def Entry := List (String × String)

instance : DecidableEq Entry := by
  unfold Entry
  infer_instance

/-- Split a character list on runs of whitespace, dropping empty pieces
(Python `str.split()` with no arguments). -/
def splitWSAux : List Char → List Char → List (List Char)
  | [], acc => if acc = [] then [] else [acc.reverse]
  | c :: cs, acc =>
    if c.isWhitespace then
      if acc = [] then splitWSAux cs [] else acc.reverse :: splitWSAux cs []
    else splitWSAux cs (c :: acc)

/-- Model of Python `s.split()`. -/
def pySplit (s : String) : List String := (splitWSAux s.data []).map List.asString

/-- Model of Python `int(s)` on the digit strings of accounting fields:
optional leading minus then decimal digits.  (Python also accepts surrounding
whitespace, `+` and underscores; those forms do not occur in these fields.)
`none` marks a `ValueError`. -/
def pyInt (s : String) : Option Int :=
  match s.data with
  | [] => none
  | '-' :: ds => if ds ≠ [] ∧ ds.all Char.isDigit then some (-(digitsVal ds : Int)) else none
  | ds => if ds.all Char.isDigit then some (digitsVal ds : Int) else none

/-- Model of Python `round(x, 1)` on an exact value: round `10·x` half to even,
divide by 10.  (On binary floats a tie like `0.15` may already be represented
off the tie; no claim depends on a tie value.) -/
def round1 (q : ℚ) : ℚ := (pyRound (q * 10) : ℚ) / 10

/-- Python dict assignment `d[k] = v`: replace the value in place if the key
exists, else append. -/
def setKey : Entry → String → String → Entry
  | [], k, v => [(k, v)]
  | (k1, v1) :: rest, k, v =>
    if k1 = k then (k, v) :: rest else (k1, v1) :: setKey rest k v

/-- Model of the step-record back-fill loop of `Job.update`: for each field of
the step record, copy it into `other_entries` when it is missing there or its
value there is empty (falsy). -/
def backfill (oe : Entry) (entry : Entry) : Entry :=
  entry.foldl
    (fun acc kv =>
      if acc.lookup kv.1 = none ∨ acc.lookup kv.1 = some "" then setKey acc kv.1 kv.2
      else acc)
    oe

/-- Model of the mutable `Job` object (src/job.py).  `time_eff` and `cpu` start
as the placeholder string `'---'` and are later set to a number or (for `cpu`)
to Python `None`; none of the claims distinguishes the initial placeholder from
`None` (both render as `'---'` through `get_entry`), so both are modelled by
`none`.  The fields `num_inputs`/`input_size`/`elapsed_seconds`/`mem` are not
touched by `update` and are omitted. -/
structure Job where
  job : String
  jobid : String
  filename : Option String
  stepmem : ℚ
  totalmem : Option ℚ
  time : Option String
  time_eff : Option ℚ
  cpu : Option ℚ
  state : Option String
  other_entries : Entry
deriving DecidableEq

/-- Model of the state-update prefix of `Job.update`: when the record's JobID
has no step separator, the job state becomes the first whitespace token of the
record's `State` field (`KeyError`/`IndexError` as `none`). -/
def Job.setState (j : Job) (e : Entry) (jid : String) : Option Job :=
  if jid.data.contains '.' then some j
  else
    match e.lookup "State" with
    | none => none
    | some st =>
      match (pySplit st).head? with
      | none => none
      | some tok => some { j with state := some tok }

/-- Model of the master-record branch of `Job.update`: store the record as
`other_entries`, capture `Elapsed`, compute the time efficiency against
`Timelimit` (1 when absent), return early when RUNNING, otherwise derive the
CPU efficiency (`None` when the elapsed wall time is 0) and the total
requested memory. -/
def Job.updateMaster (j : Job) (e : Entry) : Option Job :=
  let time := e.lookup "Elapsed"
  match (match e.lookup "Timelimit" with
         | some tl => parse_slurm_timedelta tl
         | none => some 1) with
  | none => none
  | some requested =>
    match (match e.lookup "Elapsed" with
           | some el => parse_slurm_timedelta el
           | none => some 0) with
    | none => none
    | some wall =>
      if requested = 0 then none
      else
        let te := round1 ((wall : ℚ) / (requested : ℚ) * 100)
        if j.state = some "RUNNING" then
          some { j with other_entries := e, time := time, time_eff := some te }
        else
          match (match e.lookup "TotalCPU", e.lookup "AllocCPUS" with
                 | some tc, some ac =>
                   (match parse_slurm_timedelta tc, pyInt ac with
                    | some t, some a =>
                      if a = 0 then none else some ((t : ℚ) / (a : ℚ))
                    | _, _ => none)
                 | _, _ => some 0) with
          | none => none
          | some cpus =>
            let cpu : Option ℚ := if wall = 0 then none
              else some (round1 (cpus / (wall : ℚ) * 100))
            match (match e.lookup "REQMEM", e.lookup "NNodes", e.lookup "AllocCPUS" with
                   | some rm, some nn, some ac =>
                     (match pyInt nn, pyInt ac with
                      | some n, some c => (parsemem rm n c).map some
                      | _, _ => none)
                   | _, _, _ => some none) with
            | none => none
            | some totalmem =>
              some { j with other_entries := e, time := time, time_eff := some te,
                            cpu := cpu, totalmem := totalmem }

/-- Model of the step-record branch of `Job.update`: back-fill missing or
empty master fields and add this step's `MaxRSS` to the cumulative step
memory. -/
def Job.updateStep (j : Job) (e : Entry) : Option Job :=
  let oe := backfill j.other_entries e
  match (match e.lookup "MaxRSS" with
         | some mr => parsememstep mr
         | none => some 0) with
  | none => none
  | some add => some { j with other_entries := oe, stepmem := j.stepmem + add }

/-- Model of `Job.update(entry)`. -/
def Job.update (j : Job) (e : Entry) : Option Job :=
  match e.lookup "JobID" with
  | none => none
  | some jid =>
    match Job.setState j e jid with
    | none => none
    | some j1 =>
      if j1.state = some "PENDING" then some j1
      else if j1.jobid = jid then Job.updateMaster j1 e
      else if j1.state ≠ some "RUNNING" then Job.updateStep j1 e
      else some j1

/-- A value rendered by `Job.get_entry`: either a number or the `'---'`
placeholder. -/
inductive CellValue
  | val (q : ℚ)
  | dashes
deriving DecidableEq

/-- Model of `Job.get_entry('CPUEff')`: `self.cpu if self.cpu else '---'` —
the placeholder when `cpu` is absent or 0 (falsy). -/
def Job.getCPUEff (j : Job) : CellValue :=
  match j.cpu with
  | some c => if c = 0 then CellValue.dashes else CellValue.val c
  | none => CellValue.dashes

lemma setState_fields (j : Job) (e : Entry) (jid : String) (j1 : Job)
    (h : Job.setState j e jid = some j1) :
    j1.jobid = j.jobid ∧ j1.other_entries = j.other_entries := by
  unfold Job.setState at h
  split at h
  · cases h
    exact ⟨rfl, rfl⟩
  · split at h
    · exact Option.noConfusion h
    · split at h
      · exact Option.noConfusion h
      · cases h
        exact ⟨rfl, rfl⟩

lemma updateMaster_fields (j : Job) (e : Entry) (j' : Job)
    (h : Job.updateMaster j e = some j') :
    j'.other_entries = e ∧ j'.state = j.state ∧ j'.jobid = j.jobid := by
  simp only [Job.updateMaster] at h
  repeat' split at h
  all_goals first
    | exact Option.noConfusion h
    | (cases h; exact ⟨rfl, rfl, rfl⟩)

lemma updateMaster_cpu (j : Job) (e : Entry) (j' : Job)
    (h : Job.updateMaster j e = some j')
    (hrun : ¬ j.state = some "RUNNING")
    (hwall : (match e.lookup "Elapsed" with
              | some el => parse_slurm_timedelta el
              | none => some 0) = some 0) :
    j'.cpu = none := by
  simp only [Job.updateMaster, hwall, reduceIte] at h
  repeat' split at h
  all_goals first
    | exact Option.noConfusion h
    | (cases h; simp)

/-- C10: when a master record (`JobID` equal to the job's own id) is folded in
a non-PENDING state, `Job.update` assigns the record's entire field mapping to
`other_entries` wholesale: the result does not depend on the previous
`other_entries`, so any fields back-filled earlier from step records are
discarded (the no-overwrite back-fill holds only when the master is folded
first). -/
theorem update_master_assigns_whole (j : Job) (e : Entry) (j' : Job)
    (hu : Job.update j e = some j')
    (hid : e.lookup "JobID" = some j.jobid)
    (hnp : j'.state ≠ some "PENDING") :
    j'.other_entries = e := by
  simp only [Job.update, hid] at hu
  cases hs1 : Job.setState j e j.jobid with
  | none =>
    simp only [hs1] at hu
    exact Option.noConfusion hu
  | some j1 =>
    simp only [hs1] at hu
    obtain ⟨hjid, -⟩ := setState_fields j e j.jobid j1 hs1
    by_cases hp : j1.state = some "PENDING"
    · rw [if_pos hp] at hu
      cases hu
      exact absurd hp hnp
    · rw [if_neg hp, if_pos hjid] at hu
      exact (updateMaster_fields j1 e j' hu).1

/-- C9 (amended): folding a master record in a state that is neither RUNNING
nor PENDING with a zero elapsed wall time sets the CPU-efficiency field to the
absent marker (Python `None`), and `get_entry('CPUEff')` then reports the
`'---'` placeholder — not the value 0. -/
theorem update_cpu_absent_on_zero_wall (j : Job) (e : Entry) (j' : Job)
    (hu : Job.update j e = some j')
    (hid : e.lookup "JobID" = some j.jobid)
    (hnp : j'.state ≠ some "PENDING") (hnr : j'.state ≠ some "RUNNING")
    (hw : ∀ el, e.lookup "Elapsed" = some el → parse_slurm_timedelta el = some 0) :
    j'.cpu = none ∧ Job.getCPUEff j' = CellValue.dashes := by
  simp only [Job.update, hid] at hu
  cases hs1 : Job.setState j e j.jobid with
  | none =>
    simp only [hs1] at hu
    exact Option.noConfusion hu
  | some j1 =>
    simp only [hs1] at hu
    obtain ⟨hjid, -⟩ := setState_fields j e j.jobid j1 hs1
    by_cases hp : j1.state = some "PENDING"
    · rw [if_pos hp] at hu
      cases hu
      exact absurd hp hnp
    · rw [if_neg hp, if_pos hjid] at hu
      obtain ⟨-, hst, -⟩ := updateMaster_fields j1 e j' hu
      rw [hst] at hnr
      have hwall : (match e.lookup "Elapsed" with
                    | some el => parse_slurm_timedelta el
                    | none => some 0) = some 0 := by
        cases hel : e.lookup "Elapsed" with
        | none => rfl
        | some el => exact hw el hel
      have hcpu : j'.cpu = none := updateMaster_cpu j1 e j' hu hnr hwall
      exact ⟨hcpu, by rw [Job.getCPUEff, hcpu]⟩

lemma parse00 : parse_slurm_timedelta "00:00:00" = some 0 := by
  have h1 : "00:00:00" = fmtHHMMSS 0 := rfl
  rw [h1]
  simp only [parse_slurm_timedelta, matchDD_fmtHMS 0 (by norm_num),
    matchHMS_fmtHMS 0 (by norm_num)]

/-- A freshly constructed job (state unset, no accumulated fields) with id 1,
for the C9 instances. -/
def j9 : Job := ⟨"r", "1", none, 0, none, some "---", none, none, none, []⟩

/-- A master record for job 1: COMPLETED, zero elapsed wall time, zero total
CPU time, 4 allocated CPUs, for the C9 instances. -/
def e9 : Entry := [("JobID", "1"), ("State", "COMPLETED"), ("Elapsed", "00:00:00"),
  ("TotalCPU", "00:00:00"), ("AllocCPUS", "4")]

/-- C9 counterexample: folding the zero-elapsed COMPLETED master record leaves
the CPU-efficiency field absent (Python `None`), and `get_entry('CPUEff')`
reports the `'---'` placeholder — not the value 0 the claim asserts. -/
theorem update_cpu_zero_wall_counterexample :
    (Job.update j9 e9).map (fun j => (j.state, j.cpu, Job.getCPUEff j)) =
      some (some "COMPLETED", none, CellValue.dashes) ∧
    (Job.update j9 e9).map Job.getCPUEff ≠ some (CellValue.val 0) := by
  decide

/-- Witness for C9 (amended): the concrete zero-elapsed master fold has an
absent CPU-efficiency value and renders as the placeholder. -/
theorem update_cpu_absent_witness :
    (Job.update j9 e9).map Job.cpu = some none ∧
    (Job.update j9 e9).map Job.getCPUEff = some CellValue.dashes := by
  have hst : (Job.update j9 e9).map Job.state = some (some "COMPLETED") := by decide
  cases hu : Job.update j9 e9 with
  | none =>
    rw [hu] at hst
    exact Option.noConfusion hst
  | some j' =>
    rw [hu] at hst
    injection hst with hst'
    have h := update_cpu_absent_on_zero_wall j9 e9 j' hu rfl
      (by rw [hst']; decide) (by rw [hst']; decide)
      (fun el hel => by
        have hlk : e9.lookup "Elapsed" = some "00:00:00" := rfl
        rw [hlk] at hel
        injection hel with hel'
        rw [← hel']
        exact parse00)
    exact ⟨by rw [Option.map_some', h.1], by rw [Option.map_some', h.2]⟩

/-- A job for the C10 witness whose `other_entries` already holds a back-filled
field `Foo` from an earlier step record. -/
def j10 : Job := ⟨"r", "1", none, 0, none, some "---", none, none, none, [("Foo", "7")]⟩

/-- A master record for job 1 carrying only `JobID` and `State`, for the C10
witness. -/
def e10 : Entry := [("JobID", "1"), ("State", "COMPLETED")]

/-- Witness for C10: folding the master record replaces `other_entries`
wholesale with the record — the previously back-filled `Foo` field is gone. -/
theorem update_master_assigns_whole_witness :
    (Job.update j10 e10).map Job.other_entries = some e10 ∧
    (Job.update j10 e10).map (fun j => j.other_entries.lookup "Foo") = some none := by
  have hst : (Job.update j10 e10).map Job.state = some (some "COMPLETED") := by decide
  cases hu : Job.update j10 e10 with
  | none =>
    rw [hu] at hst
    exact Option.noConfusion hst
  | some j' =>
    rw [hu] at hst
    injection hst with hst'
    have h := update_master_assigns_whole j10 e10 j' hu rfl (by rw [hst']; decide)
    exact ⟨by rw [Option.map_some', h], by rw [Option.map_some', h]; rfl⟩

/-! ### Group-job first-step discovery (src/job.py: `Job.find_first_job`)

The snakemake log is modelled as a list of lines without their trailing
newline (`line != '\n'` in the source becomes `l ≠ ""`).  The filesystem
(`os.path.exists` / `os.path.getsize`) is a parameter `fsys : String → Option
Nat`: `none` means the path does not exist, `some n` that it exists with size
`n`. -/

/-- Python `str.startswith`. -/
def strStartsWith (s pre : String) : Bool := pre.data.isPrefixOf s.data

/-- Python `str.strip()` (whitespace from both ends). -/
def strTrim (s : String) : String :=
  ⟨((s.data.dropWhile Char.isWhitespace).reverse.dropWhile Char.isWhitespace).reverse⟩

/-- Python `str.strip(',')` (commas from both ends). -/
def stripCommas (s : String) : String :=
  ⟨((s.data.dropWhile (· = ',')).reverse.dropWhile (· = ',')).reverse⟩

/-- `[l.strip(',') for l in line.split()[1:]]` from the source: drop the
leading keyword token, strip commas from each remaining token. -/
def tokArgs (s : String) : List String := ((pySplit s).drop 1).map stripCommas

/-- One collected step of a group-job block: the Python code builds a dict per
`rule` line and fills `inputs`/`sizes`/`outputs` when the matching lines occur;
a missing key stays `none`. -/
structure RawJob where
  name : String
  inputs : Option (List String)
  sizes : Option (List String)
  outputs : Option (List String)
deriving DecidableEq

/-- Python `jobs[-1][k] = v`: update the last element; `none` marks the
`IndexError` when the list is empty. -/
def setLast : List RawJob → (RawJob → RawJob) → Option (List RawJob)
  | [], _ => none
  | [j], f => some [f j]
  | j :: rest, f => (setLast rest f).map (j :: ·)

/-- Model of the line-collection loop of `find_first_job`: a non-indented,
non-blank line ends the group block; indented lines starting (after stripping)
with `rule` open a new step, and `input`/`size`/`output` lines fill the last
step's fields. -/
def parseGroupLines : List String → List RawJob → Option (List RawJob)
  | [], jobs => some jobs
  | l :: rest, jobs =>
    if ¬ strStartsWith l " " ∧ l ≠ "" then some jobs
    else
      let t := strTrim l
      if strStartsWith t "rule" then
        parseGroupLines rest (jobs ++ [⟨t, none, none, none⟩])
      else if strStartsWith t "input" then
        match setLast jobs (fun j => { j with inputs := some (tokArgs t) }) with
        | none => none
        | some js => parseGroupLines rest js
      else if strStartsWith t "size" then
        match setLast jobs (fun j => { j with sizes := some (tokArgs t) }) with
        | none => none
        | some js => parseGroupLines rest js
      else if strStartsWith t "output" then
        match setLast jobs (fun j => { j with outputs := some (tokArgs t) }) with
        | none => none
        | some js => parseGroupLines rest js
      else parseGroupLines rest jobs

/-- Inner loops of `in_outputs`: scan every job's `outputs` for one input file;
`none` marks the `KeyError` when a scanned job has no `outputs` key. -/
def scanJobs (infile : String) : List RawJob → Option Bool
  | [] => some false
  | j :: js =>
    match j.outputs with
    | none => none
    | some outs => if infile ∈ outs then some true else scanJobs infile js

/-- Model of the `in_outputs` helper of `find_first_job`: is some input file
among any job's output files?  Short-circuits on the first match. -/
def in_outputs (jobs : List RawJob) : List String → Option Bool
  | [] => some false
  | f :: fsq =>
    match scanJobs f jobs with
    | none => none
    | some true => some true
    | some false => in_outputs jobs fsq

/-- A token passed to `get_sizes`: the explicit size list holds strings, the
filesystem fallback produces Python ints (`os.path.getsize`). -/
inductive Tok
  | str (s : String)
  | int (n : Nat)
deriving DecidableEq

/-- Model of `Job.get_sizes`: sum `int(t.strip(','))` over the tokens, where a
`ValueError` (non-numeric string) is caught and contributes nothing.  An int
token raises `AttributeError` (`int` has no `.strip`), which is not caught:
`none`. -/
def get_sizes : List Tok → Option Int
  | [] => some 0
  | Tok.str s :: ts =>
    match get_sizes ts with
    | none => none
    | some r => some ((pyInt (stripCommas s)).getD 0 + r)
  | Tok.int _ :: _ => none

/-- Result of `find_first_job`: an uncaught exception, the implicit `None`
when no source step exists, or the selected first step's rule line together
with the input count and size total it adds to the job. -/
inductive FFJResult
  | crash
  | nothing
  | found (numInputs : Nat) (sizeSum : Int) (name : String)
deriving DecidableEq

/-- Model of the selection loop of `find_first_job`: take the first step none
of whose inputs is any step's output; its token list is the explicit size list
when present, else the filesystem sizes of its existing input paths; the token
count and parsed size total are added to the job and the step's rule line is
returned. -/
def selectFirst (fsys : String → Option Nat) (jobs : List RawJob) :
    List RawJob → FFJResult
  | [] => FFJResult.nothing
  | j :: js =>
    match j.inputs with
    | none => FFJResult.crash
    | some ins =>
      match in_outputs jobs ins with
      | none => FFJResult.crash
      | some true => selectFirst fsys jobs js
      | some false =>
        let tokens : List Tok :=
          match j.sizes with
          | some s => s.map Tok.str
          | none => ins.filterMap (fun i => (fsys i).map Tok.int)
        match get_sizes tokens with
        | none => FFJResult.crash
        | some total => FFJResult.found tokens.length total j.name

/-- Model of `Job.find_first_job`. -/
def find_first_job (fsys : String → Option Nat) (lines : List String) : FFJResult :=
  match parseGroupLines lines [] with
  | none => FFJResult.crash
  | some jobs => selectFirst fsys jobs jobs

/-- Filesystem for the C6 instances: only `in.txt` exists, with size 100. -/
def fs6 : String → Option Nat := fun s => if s = "in.txt" then some 100 else none

/-- A→B→C group block without explicit size lines: step a's input must be
sized from the filesystem. -/
def lines6fs : List String :=
  ["  rule a", "  input: in.txt", "  output: mid.txt",
   "  rule b", "  input: mid.txt", "  output: mid2.txt",
   "  rule c", "  input: mid2.txt", "  output: out.txt"]

/-- A→B→C group block whose first step has an explicit size list. -/
def lines6sz : List String :=
  ["  rule a", "  input: in1.txt in2.txt", "  size: 100 200", "  output: mid.txt",
   "  rule b", "  input: mid.txt", "  output: mid2.txt",
   "  rule c", "  input: mid2.txt", "  output: out.txt"]

/-- C6: on an A→B→C group block with an explicit size list, `find_first_job`
returns step A's rule line and adds exactly A's token count and size total
(steps B and C contribute nothing); but on the same dependency shape without a
size list, the filesystem fallback passes `os.path.getsize` integers into
`get_sizes`, whose `t.strip(',')` raises an uncaught `AttributeError` instead
of adding A's filesystem sizes as the claim (and the function's own
docstrings) state. -/
theorem find_first_job_eval :
    find_first_job fs6 lines6sz = FFJResult.found 2 300 "rule a" ∧
    find_first_job fs6 lines6fs = FFJResult.crash := by
  decide

end SlurmScrub
